import Mathlib

/-
Verification development for the flodk workflow engine core.

The Go source is shallowly embedded as follows:
- Go maps become association lists with first-match lookup and
  overwrite-on-insert (setKey), which models the Go map observations the
  code makes; where the code iterates a map, the list order stands for
  one admissible iteration order.
- Go (value, error) returns become pairs with Option Err, or Except Err.
- context.Context values are modelled structurally: the engine only ever
  stores the key "current_node" (a String) and keys of the form
  "interrupt_of:" ++ nodeID (a ResolvedHITLInterrupt); these two key
  families are disjoint, so the context is a structure with one field for
  each family. The token drawn from wall-clock time and randomness when a
  new interrupt is created is modelled by the freshToken field of the
  context, threaded in from the caller.
- The lifecycle callbacks of Flow cannot influence the engine (they
  receive copies and return nothing), so Flow.Execute returns the ordered
  trace of callback invocations instead of taking callback functions;
  Pipe interprets the trace by folding store writes over it, exactly as
  its persistStateFunc callback would.
- Calling a method on a nil interface value (the missing-node lookup in
  the engine loop) is a Go runtime panic; it is modelled by the crashed
  outcome. The deferred end-of-run callback still runs during panic
  unwinding, which the trace reflects.
-/

/-- First-match lookup in an association list, modelling a Go map read. -/
def lookupKey {α : Type} : List (String × α) → String → Option α
  | [], _ => none
  | (k, v) :: rest, key => if k = key then some v else lookupKey rest key

/-- Overwrite-or-append insertion, modelling a Go map write. -/
def setKey {α : Type} : List (String × α) → String → α → List (String × α)
  | [], key, v => [(key, v)]
  | (k, v') :: rest, key, v =>
    if k = key then (key, v) :: rest else (k, v') :: setKey rest key v

/-- InterruptID identifies the interrupt against the node which threw it. -/
structure InterruptID where
  NodeID : String
  ID : String
deriving DecidableEq, Repr

/-- RequirementTypes is a string type in Go; kept as String. -/
abbrev RequirementTypes := String

/-- Enum requirements can only choose values from the provided suggestions. -/
def Enum : RequirementTypes := "enum"

/-- Custom requirements can input any text as the interrupt value. -/
def Custom : RequirementTypes := "custom"

/-- CustomWithSuggestions requirements can input any text with suggestions as hints. -/
def CustomWithSuggestions : RequirementTypes := "custom_with_suggestions"

/-- Requirement defines the constraints for the interrupt requirements.
The Go field Type is renamed reqType because Type is a Lean keyword. -/
structure Requirement where
  reqType : RequirementTypes
  Suggestions : List String
deriving DecidableEq, Repr

/-- Requirements is a map of all the requirements which need input from the user. -/
abbrev Requirements := List (String × Requirement)

/-- HITLInterrupt is raised to invoke a human-in-the-loop routine as part
of the flow. The Go ValidationError field holds an opaque error value;
it is modelled as an optional message string. -/
structure HITLInterrupt where
  Reason : String
  Message : String
  ValidationError : Option String
  Requirements : List (String × Requirement)
  InterruptID : InterruptID
deriving DecidableEq, Repr

/-- The Go zero value of HITLInterrupt, used when the pending slot is empty. -/
def HITLInterrupt.zero : HITLInterrupt :=
  { Reason := "", Message := "", ValidationError := none,
    Requirements := [], InterruptID := { NodeID := "", ID := "" } }

/-- Err models the Go error values the core produces or inspects: a
HITLInterrupt (recognised by errors.As in the engine), the two
requirement-validation errors, and any other opaque error. -/
inductive Err where
  | hitl (i : HITLInterrupt)
  | reqKeyNotFound (key : String)
  | reqInvalid (key value : String) (suggestions : List String)
  | other (msg : String)
deriving DecidableEq, Repr

/-- Constructor mirroring RequirementKeyNotFound from the errors file. -/
def RequirementKeyNotFound (key : String) : Err := .reqKeyNotFound key

/-- Constructor mirroring RequirementInvalid from the errors file; the Go
version joins the suggestions into one string, the list carries the same
information. -/
def RequirementInvalid (key value : String) (suggestions : List String) : Err :=
  .reqInvalid key value suggestions

/-- Validate does a basic validation of the provided values against the
constraints defined in the Requirements: each declared key must be
present and map to a non-empty string. -/
def Requirements.Validate : Requirements → List (String × String) → Option Err
  | [], _ => none
  | (k, _) :: rest, values =>
    match lookupKey values k with
    | none => some (RequirementKeyNotFound k)
    | some data =>
      if data = "" then some (RequirementKeyNotFound k)
      else Requirements.Validate rest values

/-- ResolvedHITLInterrupt contains the original interrupt and the answer
values submitted by the user. The Go struct embeds HITLInterrupt. -/
structure ResolvedHITLInterrupt where
  HITLInterrupt : HITLInterrupt
  Values : List (String × String)
deriving DecidableEq, Repr

/-- Structural model of the context.Context values the core uses: the
"current_node" key, the "interrupt_of:" ++ nodeID key family, and the
source of the fresh interrupt token (time plus randomness in Go). -/
structure Ctx where
  currentNode : Option String
  resolvedInterrupts : List (String × ResolvedHITLInterrupt)
  freshToken : String

/-- LoadNodeID stores the current graph node id into the context. -/
def LoadNodeID (ctx : Ctx) (nodeID : String) : Ctx :=
  { ctx with currentNode := some nodeID }

/-- GetNodeID retrieves the current node id from the context. -/
def GetNodeID (ctx : Ctx) : Option String := ctx.currentNode

/-- LoadInterrupt loads the context with a resolved interrupt, keyed by
the NodeID of the interrupt. -/
def LoadInterrupt (ctx : Ctx) (interrupt : HITLInterrupt)
    (values : List (String × String)) : Ctx :=
  { ctx with
      resolvedInterrupts :=
        setKey ctx.resolvedInterrupts interrupt.InterruptID.NodeID
          { HITLInterrupt := interrupt, Values := values } }

/-- getLoadedInterrupt fetches the loaded resolved interrupt for the
NodeID of the passed interrupt from the context. -/
def getLoadedInterrupt (ctx : Ctx) (interrupt : HITLInterrupt) :
    Option ResolvedHITLInterrupt :=
  lookupKey ctx.resolvedInterrupts interrupt.InterruptID.NodeID

/-- Node: a unit of work taking a context and a state, producing an
updated state or an error (Go Execute returns both a state and an error). -/
abbrev Node (T : Type) := Ctx → T → T × Option Err

/-- ConditionalNode inspects the state to decide a label for routing. -/
abbrev ConditionalNode (T : Type) := Ctx → T → String

/-- Noop returns a node which does nothing. -/
def Noop (T : Type) : Node T := fun _ s => (s, none)

/-- EdgeResolver: constant routing or conditional branch selection. -/
inductive EdgeResolver (T : Type) where
  | const (next : String)
  | conditional (exec : ConditionalNode T) (redirections : List (String × String))

/-- Resolve picks the next node name: a ConstEdge returns its constant; a
ConditionalEdge runs the decision node, looks the label up in its
redirections, and returns the empty string when the label is unmapped. -/
def EdgeResolver.Resolve {T : Type} : EdgeResolver T → Ctx → T → String
  | .const next, _, _ => next
  | .conditional exec redirections, ctx, s =>
    match lookupKey redirections (exec ctx s) with
    | none => ""
    | some next => next

/-- Observer for the redirection mapping stored in an edge. -/
def EdgeResolver.redirections? {T : Type} : EdgeResolver T → Option (List (String × String))
  | .const _ => none
  | .conditional _ redirections => some redirections

/-- Graph stores the graph nodes and edge configuration. -/
structure Graph (T : Type) where
  nodeMap : List (String × Node T)
  edges : List (String × EdgeResolver T)
  start : String

/-- GraphBuilder is a helper type containing methods to build a graph. -/
structure GraphBuilder (T : Type) where
  g : Graph T

/-- NewGraphBuilder returns a fresh builder with an empty graph. -/
def NewGraphBuilder (T : Type) : GraphBuilder T :=
  { g := { nodeMap := [], edges := [], start := "" } }

/-- AddNode adds a node to the graph (map write, last write wins). -/
def GraphBuilder.AddNode {T : Type} (gb : GraphBuilder T) (name : String)
    (node : Node T) : GraphBuilder T :=
  { gb with g := { gb.g with nodeMap := setKey gb.g.nodeMap name node } }

/-- AddEdge adds a single constant edge; skipped with a diagnostic when
either endpoint is unregistered. -/
def GraphBuilder.AddEdge {T : Type} (gb : GraphBuilder T) (start end_ : String) :
    GraphBuilder T :=
  if (lookupKey gb.g.nodeMap start).isNone then gb
  else if (lookupKey gb.g.nodeMap end_).isNone then gb
  else { gb with g := { gb.g with edges := setKey gb.g.edges start (.const end_) } }

/-- AddConditionalEdge adds a conditional edge. The Go code builds a
filtered endNodes map dropping entries whose target node is unregistered
but then stores the original unfiltered redirections map; the unused
_endNodes binding mirrors that dead computation. -/
def GraphBuilder.AddConditionalEdge {T : Type} (gb : GraphBuilder T) (start : String)
    (end_ : ConditionalNode T) (redirections : List (String × String)) :
    GraphBuilder T :=
  if (lookupKey gb.g.nodeMap start).isNone then gb
  else
    let _endNodes :=
      redirections.filter (fun kv => (lookupKey gb.g.nodeMap kv.2).isSome)
    { gb with g := { gb.g with
        edges := setKey gb.g.edges start (.conditional end_ redirections) } }

/-- SetStartNode sets the start node; skipped with a diagnostic when the
name is empty or unregistered. -/
def GraphBuilder.SetStartNode {T : Type} (gb : GraphBuilder T) (start : String) :
    GraphBuilder T :=
  if start = "" then gb
  else if (lookupKey gb.g.nodeMap start).isNone then gb
  else { gb with g := { gb.g with start := start } }

/-- Build checks the validity of the graph and returns it; fails when no
start node was ever set. -/
def GraphBuilder.Build {T : Type} (gb : GraphBuilder T) : Except Err (Graph T) :=
  if gb.g.start = "" then .error (.other "no invocation node found")
  else .ok gb.g

/-- CheckpointState stores flow execution state used to resume when the
execution is interrupted: the cursor, the visited list, the pending
interrupt (Go zero value when none), and the resolved history. -/
structure CheckpointState where
  CheckpointID : String
  Visited : List String
  Interrupt : HITLInterrupt
  InterruptHistory : List ResolvedHITLInterrupt
deriving DecidableEq, Repr

/-- The Go zero value of CheckpointState. -/
def CheckpointState.zero : CheckpointState :=
  { CheckpointID := "", Visited := [], Interrupt := HITLInterrupt.zero,
    InterruptHistory := [] }

/-- ExecutionID is a compound key of a caller-supplied id and flow name. -/
structure ExecutionID where
  ID : String
  FlowName : String
deriving DecidableEq, Repr

/-- ExecutionState pairs the checkpoint state with the application state. -/
structure ExecutionState (T : Type) where
  CheckpointState : CheckpointState
  ApplicationState : T
deriving DecidableEq

/-- StoreState is the backing map of the in-memory store implementation. -/
abbrev StoreState (T : Type) := List (String × ExecutionState T)

/-- The key layout of the in-memory store: id, colon, flow name. -/
def InMemoryStore.key (id : ExecutionID) : String := id.ID ++ ":" ++ id.FlowName

/-- Get of the in-memory store: a missing record is returned as the zero
value with no error. The zero application state is the Inhabited default. -/
def InMemoryStore.Get {T : Type} [Inhabited T] (σ : StoreState T)
    (id : ExecutionID) : ExecutionState T :=
  match lookupKey σ (InMemoryStore.key id) with
  | none => { CheckpointState := CheckpointState.zero, ApplicationState := default }
  | some st => st

/-- Set of the in-memory store. -/
def InMemoryStore.Set {T : Type} (σ : StoreState T) (id : ExecutionID)
    (st : ExecutionState T) : StoreState T :=
  setKey σ (InMemoryStore.key id) st

/-- One lifecycle-callback invocation of the engine, in order: the
post-step hook, the post-resolution hook, and the end-of-run hook. Each
carries the checkpoint and application state the Go code passes. -/
inductive FlowEvent (T : Type) where
  | nodeExec (cs : CheckpointState) (s : T)
  | nodeResolution (cs : CheckpointState) (s : T)
  | graphEnd (cs : CheckpointState) (s : T)
deriving DecidableEq, Repr

/-- The checkpoint carried by a lifecycle event. -/
def FlowEvent.cs {T : Type} : FlowEvent T → CheckpointState
  | .nodeExec cs _ | .nodeResolution cs _ | .graphEnd cs _ => cs

/-- The application state carried by a lifecycle event. -/
def FlowEvent.state {T : Type} : FlowEvent T → T
  | .nodeExec _ s | .nodeResolution _ s | .graphEnd _ s => s

/-- Whether the event is the end-of-run hook. -/
def FlowEvent.isGraphEnd {T : Type} : FlowEvent T → Bool
  | .graphEnd _ _ => true
  | _ => false

/-- How an engine run ends: normal completion, a step error returned to
the caller (including interrupts), a runtime crash from calling a method
on the nil node returned by a missing nodeMap lookup, or exhaustion of
the fuel bound of the model (the Go loop would still be running). -/
inductive LoopEnd (T : Type) where
  | completed (s : T) (cs : CheckpointState)
  | errored (s : T) (e : Err) (cs : CheckpointState)
  | crashed (s : T) (cs : CheckpointState)
  | fuelOut (s : T) (cs : CheckpointState) (cur : String)
deriving DecidableEq, Repr

/-- The final checkpoint state of a run end. -/
def LoopEnd.finalCS {T : Type} : LoopEnd T → CheckpointState
  | .completed _ cs | .errored _ _ cs | .crashed _ cs | .fuelOut _ cs _ => cs

/-- The final application state of a run end. -/
def LoopEnd.finalState {T : Type} : LoopEnd T → T
  | .completed s _ | .errored s _ _ | .crashed s _ | .fuelOut s _ _ => s

/-- Whether the run ended because the model ran out of fuel. -/
def LoopEnd.isFuelOut {T : Type} : LoopEnd T → Bool
  | .fuelOut _ _ _ => true
  | _ => false

/-- Whether the run ended in the nil-node crash. -/
def LoopEnd.isCrashed {T : Type} : LoopEnd T → Bool
  | .crashed _ _ => true
  | _ => false

/-- The success-path pending-interrupt bookkeeping of the engine: when
the pending interrupt is addressed to the node just executed, the
resolved interrupt loaded in the context (if any) is appended to the
history and the pending slot is reset to the zero value. -/
def resolveInterruptSlot {T : Type} (_g : Graph T) (ctx : Ctx)
    (cs : CheckpointState) (cur : String) : CheckpointState :=
  if cs.Interrupt.InterruptID.NodeID = cur then
    match getLoadedInterrupt ctx cs.Interrupt with
    | some lint =>
      { cs with InterruptHistory := cs.InterruptHistory ++ [lint],
                Interrupt := HITLInterrupt.zero }
    | none => { cs with Interrupt := HITLInterrupt.zero }
  else cs

/-- The cursor write of the engine loop after edge resolution. -/
def setCheckpointID (cs : CheckpointState) (id : String) : CheckpointState :=
  { cs with CheckpointID := id }

/-- The engine loop of Flow.Execute, one iteration per fuel unit. Each
iteration appends the current node to Visited, looks the node up
(missing is the nil-interface crash), executes it, handles the error or
success paths, and resolves the next node via the edge map. The event
list records the lifecycle-callback invocations in order. -/
def execLoop {T : Type} (g : Graph T) (ctx : Ctx) :
    Nat → String → CheckpointState → T → LoopEnd T × List (FlowEvent T)
  | 0, cur, cs, s => (.fuelOut s cs cur, [])
  | fuel + 1, cur, cs, s =>
    let cs1 : CheckpointState := { cs with Visited := cs.Visited ++ [cur] }
    match lookupKey g.nodeMap cur with
    | none => (.crashed s cs1, [])
    | some node =>
      match node (LoadNodeID ctx cur) s with
      | (s', some e) =>
        match e with
        | .hitl i =>
          let cs2 := { cs1 with Interrupt := i }
          (.errored s' (.hitl i) cs2, [.nodeExec cs2 s'])
        | .reqKeyNotFound k => (.errored s (.reqKeyNotFound k) cs1, [])
        | .reqInvalid k v sug => (.errored s (.reqInvalid k v sug) cs1, [])
        | .other m => (.errored s (.other m) cs1, [])
      | (s', none) =>
        let cs2 := resolveInterruptSlot g ctx cs1 cur
        match lookupKey g.edges cur with
        | none => (.completed s' cs2, [.nodeExec cs2 s'])
        | some resolver =>
          let nxt := resolver.Resolve ctx s'
          let cs3 := setCheckpointID cs2 nxt
          let rest := execLoop g ctx fuel nxt cs3 s'
          (rest.1, .nodeExec cs2 s' :: .nodeResolution cs3 s' :: rest.2)

/-- Flow.Execute: derive the starting node from the checkpoint cursor
(empty cursor means the graph start, and the cursor is set to it), run
the loop, and fire the deferred end-of-run callback with the final
checkpoint and state; the deferred callback also runs during the panic
unwinding of a crash, but not in the fuel-out model artifact. -/
def Flow.Execute {T : Type} (g : Graph T) (ctx : Ctx) (fuel : Nat)
    (cs : CheckpointState) (s : T) : LoopEnd T × List (FlowEvent T) :=
  let cur := if cs.CheckpointID ≠ "" then cs.CheckpointID else g.start
  let cs0 := if cs.CheckpointID ≠ "" then cs else { cs with CheckpointID := g.start }
  let r := execLoop g ctx fuel cur cs0 s
  if r.1.isFuelOut then r
  else (r.1, r.2 ++ [.graphEnd r.1.finalCS r.1.finalState])

/-- The (state, error) pair a Go caller of Invoke or Continue observes; a
crash is a propagating runtime panic, and out-of-fuel marks a run the
bounded model did not finish. -/
inductive GoResult (T : Type) where
  | ret (s : T) (e : Option Err)
  | crash
  | outOfFuel
deriving DecidableEq, Repr

/-- The caller-visible result of a run end. -/
def LoopEnd.toResult {T : Type} : LoopEnd T → GoResult T
  | .completed s _ => .ret s none
  | .errored s e _ => .ret s (some e)
  | .crashed _ _ => .crash
  | .fuelOut _ _ _ => .outOfFuel

/-- Pipe supervises graph execution: it loads data from the checkpoint
store, validates HITL answers on resumption, and runs the flow. -/
structure Pipe (T : Type) where
  name : String
  graph : Graph T

/-- The persistence callback of the pipe writes every lifecycle event to
the store under the compound execution id; all three hooks are wired to
this same function, so the store update is a fold over the event trace. -/
def Pipe.persistEvents {T : Type} (p : Pipe T) (id : String)
    (σ : StoreState T) (evs : List (FlowEvent T)) : StoreState T :=
  evs.foldl
    (fun acc ev =>
      InMemoryStore.Set acc { ID := id, FlowName := p.name }
        { CheckpointState := ev.cs, ApplicationState := ev.state })
    σ

/-- The common invoke path of the pipe: run the flow with the given
checkpoint and initial state, persisting every lifecycle event. -/
def Pipe.invoke {T : Type} (p : Pipe T) (ctx : Ctx) (fuel : Nat) (id : String)
    (checkpointState : CheckpointState) (initState : T) (σ : StoreState T) :
    GoResult T × StoreState T :=
  let r := Flow.Execute p.graph ctx fuel checkpointState initState
  (r.1.toResult, p.persistEvents id σ r.2)

/-- Invoke starts a flow execution with an empty checkpoint. -/
def Pipe.Invoke {T : Type} (p : Pipe T) (ctx : Ctx) (fuel : Nat) (id : String)
    (initState : T) (σ : StoreState T) : GoResult T × StoreState T :=
  p.invoke ctx fuel id CheckpointState.zero initState σ

/-- The answer-validation loop of Pipe.Continue: for every requirement
declared on the stored pending interrupt, the answers must contain the
key, and an enum requirement must receive one of its suggestions; on
success the collected answer map is returned. -/
def validateAnswers : List (String × Requirement) → List (String × String) →
    Except Err (List (String × String))
  | [], _ => .ok []
  | (key, req) :: rest, rc =>
    match lookupKey rc key with
    | none => .error (RequirementKeyNotFound key)
    | some ans =>
      if req.reqType = Enum ∧ ans ∉ req.Suggestions then
        .error (RequirementInvalid key ans req.Suggestions)
      else
        match validateAnswers rest rc with
        | .error e => .error e
        | .ok vs => .ok ((key, ans) :: vs)

/-- Continue resumes the flow right after an interrupt: fetch the stored
execution state, validate the submitted answers against the stored
pending interrupt, load the resolved interrupt into the context, and
re-invoke the flow from the stored checkpoint. A validation failure
returns before re-invoking, leaving the store untouched. -/
def Pipe.Continue {T : Type} [Inhabited T] (p : Pipe T) (ctx : Ctx) (fuel : Nat)
    (id : String) (interruptValues : List (String × String)) (σ : StoreState T) :
    GoResult T × StoreState T :=
  let execState := InMemoryStore.Get σ { ID := id, FlowName := p.name }
  match validateAnswers execState.CheckpointState.Interrupt.Requirements
      interruptValues with
  | .error e => (.ret execState.ApplicationState (some e), σ)
  | .ok vals =>
    let loadedCtx := LoadInterrupt ctx execState.CheckpointState.Interrupt vals
    p.invoke loadedCtx fuel id execState.CheckpointState
      execState.ApplicationState σ

/-- InterruptWithValidation: look up the current node id (absence is a
configuration error), return the resolved answers when a resolved
interrupt for this node is loaded in the context and the validator
accepts them, re-raise the prior interrupt with the validation error
attached when the validator rejects them, and otherwise raise a fresh
interrupt whose id combines the node id with the fresh token. -/
def InterruptWithValidation (ctx : Ctx) (message : String) (reason : String)
    (values : Requirements) (fn : List (String × String) → Option String) :
    Except Err (List (String × String)) :=
  match GetNodeID ctx with
  | none => .error (.other "nodeID not found in context")
  | some nodeID =>
    match lookupKey ctx.resolvedInterrupts nodeID with
    | some existingInterrupt =>
      match fn existingInterrupt.Values with
      | some err =>
        .error (.hitl { existingInterrupt.HITLInterrupt with
                          ValidationError := some err })
      | none => .ok existingInterrupt.Values
    | none =>
      .error (.hitl
        { Reason := reason, Message := message, ValidationError := none,
          Requirements := values,
          InterruptID := { NodeID := nodeID, ID := ctx.freshToken } })

/-- Interrupt calls InterruptWithValidation with a validator that always
succeeds. -/
def Interrupt (ctx : Ctx) (message : String) (reason : String)
    (values : Requirements) : Except Err (List (String × String)) :=
  InterruptWithValidation ctx message reason values (fun _ => none)

/-
Concrete scenario material: the two-step booking graph of the spec
scenario, and the small graphs exhibiting the conditional-edge paths.
-/

/-- Application state for the concrete scenario: one extracted name. -/
structure BookState where
  name : String
deriving DecidableEq, Repr

instance : Inhabited BookState := ⟨{ name := "" }⟩

/-- Step A of the scenario: request the name through the plain interrupt
entry point, and once an answer is present store it into the state. -/
def nodeA : Node BookState := fun ctx s =>
  match Interrupt ctx "provide name" "need_name"
      [("name", { reqType := Custom, Suggestions := [] })] with
  | .error e => (s, some e)
  | .ok values => ({ name := (lookupKey values "name").getD "" }, none)

/-- Step B of the scenario: a terminal no-op. -/
def nodeB : Node BookState := Noop BookState

/-- The scenario graph: A with a constant edge to B, B terminal, start A. -/
def scenarioGraph : Graph BookState :=
  (((((NewGraphBuilder BookState).AddNode "A" nodeA).AddNode "B" nodeB).AddEdge
      "A" "B").SetStartNode "A").g

/-- The scenario pipe over the in-memory store. -/
def scenarioPipe : Pipe BookState := { name := "flight", graph := scenarioGraph }

/-- Context of the first invocation, with interrupt token tok1. -/
def ctxI : Ctx := { currentNode := none, resolvedInterrupts := [], freshToken := "tok1" }

/-- Context of the resumption, with interrupt token tok2. -/
def ctxC : Ctx := { currentNode := none, resolvedInterrupts := [], freshToken := "tok2" }

/-- The first invocation of the scenario on an empty store. -/
def invokeRun : GoResult BookState × StoreState BookState :=
  scenarioPipe.Invoke ctxI 10 "run1" { name := "" } []

/-- The resumption of the scenario with the answer Ada. -/
def continueRun : GoResult BookState × StoreState BookState :=
  scenarioPipe.Continue ctxC 10 "run1" [("name", "Ada")] invokeRun.2

/-- A node that succeeds and leaves the state unchanged. -/
def okNode : Node Unit := fun _ s => (s, none)

/-- A decision node returning a label with no redirection entry. -/
def decC1 : ConditionalNode Unit := fun _ _ => "other"

/-- Graph with one node A whose conditional edge maps only the label x,
while the decision node returns the unmapped label. -/
def gC1 : Graph Unit :=
  ((((NewGraphBuilder Unit).AddNode "A" okNode).AddConditionalEdge "A" decC1
      [("x", "A")]).SetStartNode "A").g

/-- A context carrying nothing. -/
def ctxU : Ctx := { currentNode := none, resolvedInterrupts := [], freshToken := "" }

/-- Pipe over the unmapped-label graph. -/
def pC1 : Pipe Unit := { name := "wf", graph := gC1 }

/-- A decision node returning the label x. -/
def decX : ConditionalNode Unit := fun _ _ => "x"

/-- Builder state after registering node A and adding a conditional edge
whose only redirection target Z was never registered. -/
def gbC2 : GraphBuilder Unit :=
  ((NewGraphBuilder Unit).AddNode "A" okNode).AddConditionalEdge "A" decX [("x", "Z")]

/-- Claim C1: for a conditional edge whose decision label has no entry in
the redirection mapping, Resolve does return the empty string, but the
engine does not end the run as completed: the loop continues with the
empty string as current node, appends it to Visited, and the nodeMap
lookup yields the nil node, whose method call is a runtime crash. This
theorem evaluates the code at the failing input. -/
theorem claim_C1_unmapped_label_crashes_not_completes :
    (lookupKey gC1.edges "A").map (fun r => r.Resolve ctxU ()) = some "" ∧
    (Flow.Execute gC1 ctxU 2 CheckpointState.zero ()).1 =
      .crashed ()
        { CheckpointID := "", Visited := ["A", ""],
          Interrupt := HITLInterrupt.zero, InterruptHistory := [] } := by
  constructor
  · rfl
  · rfl

/-- Claim C2: AddConditionalEdge computes the filtered endNodes map but
stores the original redirections map, so the entry whose target Z is
unregistered is kept in the stored edge, and the stored edge routes the
label x to the unregistered node Z. This theorem evaluates the code at
the failing input. -/
theorem claim_C2_unresolvable_redirection_kept :
    (lookupKey gbC2.g.nodeMap "Z").isNone = true ∧
    (lookupKey gbC2.g.edges "A").map EdgeResolver.redirections? =
      some (some [("x", "Z")]) ∧
    (lookupKey gbC2.g.edges "A").map (fun r => r.Resolve ctxU ()) = some "Z" := by
  refine ⟨rfl, rfl, rfl⟩

/-- Claim C3: on the scenario graph, Invoke returns an Interrupt whose
InterruptID names node A and whose requirements are exactly the custom
name requirement; Continue with the answer Ada then succeeds with an end
state carrying Ada, and the persisted Visited list equals A, A, B. -/
theorem claim_C3_scenario_roundtrip :
    invokeRun.1 =
      .ret { name := "" }
        (some (.hitl
          { Reason := "need_name", Message := "provide name",
            ValidationError := none,
            Requirements := [("name", { reqType := Custom, Suggestions := [] })],
            InterruptID := { NodeID := "A", ID := "tok1" } })) ∧
    continueRun.1 = .ret { name := "Ada" } none ∧
    (lookupKey continueRun.2 "run1:flight").map
        (fun ex => (ex.CheckpointState.Visited, ex.ApplicationState.name)) =
      some (["A", "A", "B"], "Ada") := by
  refine ⟨rfl, rfl, rfl⟩

/-- Counterexample to claim C8 as stated: after a plain Invoke on the
unmapped-label graph, the persisted Visited list is A followed by the
empty string, and the empty string is not a registered step name. -/
theorem claim_C8_counterexample :
    (pC1.Invoke ctxU 2 "r1" () []).1 = .crash ∧
    (lookupKey (pC1.Invoke ctxU 2 "r1" () []).2 "r1:wf").map
        (fun ex => ex.CheckpointState.Visited) = some ["A", ""] ∧
    (lookupKey gC1.nodeMap "").isNone = true := by
  refine ⟨rfl, rfl, rfl⟩

/-- The interrupt bookkeeping on the success path never changes Visited. -/
theorem resolveInterruptSlot_Visited {T : Type} (g : Graph T) (ctx : Ctx)
    (cs : CheckpointState) (cur : String) :
    (resolveInterruptSlot g ctx cs cur).Visited = cs.Visited := by
  unfold resolveInterruptSlot
  split
  · split <;> rfl
  · rfl

/-- The engine loop itself never emits the end-of-run event; only the
deferred callback of the wrapper does. -/
theorem execLoop_no_graphEnd {T : Type} (g : Graph T) (ctx : Ctx) :
    ∀ (fuel : Nat) (cur : String) (cs : CheckpointState) (s : T),
      ∀ ev ∈ (execLoop g ctx fuel cur cs s).2, ev.isGraphEnd = false := by
  intro fuel
  induction fuel with
  | zero =>
    intro cur cs s ev hev
    simp [execLoop] at hev
  | succ n ih =>
    intro cur cs s ev hev
    simp only [execLoop] at hev
    cases hn : lookupKey g.nodeMap cur with
    | none => simp [hn] at hev
    | some node =>
      cases hs : node (LoadNodeID ctx cur) s with
      | mk s' err =>
        cases err with
        | some e =>
          cases e <;> simp [hn, hs] at hev <;>
            simp [hev, FlowEvent.isGraphEnd]
        | none =>
          cases he : lookupKey g.edges cur with
          | none =>
            simp [hn, hs, he] at hev
            simp [hev, FlowEvent.isGraphEnd]
          | some r =>
            simp only [hn, hs, he] at hev
            simp only [List.mem_cons] at hev
            rcases hev with h | h | h
            · simp [h, FlowEvent.isGraphEnd]
            · simp [h, FlowEvent.isGraphEnd]
            · exact ih _ _ _ ev h

/-- The loop only ever appends to Visited: the incoming visited list is a
prefix of the final one, whatever the outcome. -/
theorem execLoop_Visited_mono {T : Type} (g : Graph T) (ctx : Ctx) :
    ∀ (fuel : Nat) (cur : String) (cs : CheckpointState) (s : T),
      ∃ t, ((execLoop g ctx fuel cur cs s).1.finalCS).Visited = cs.Visited ++ t := by
  intro fuel
  induction fuel with
  | zero =>
    intro cur cs s
    exact ⟨[], by simp [execLoop, LoopEnd.finalCS]⟩
  | succ n ih =>
    intro cur cs s
    simp only [execLoop]
    cases hn : lookupKey g.nodeMap cur with
    | none => exact ⟨[cur], by simp [hn, LoopEnd.finalCS]⟩
    | some node =>
      cases hs : node (LoadNodeID ctx cur) s with
      | mk s' err =>
        cases err with
        | some e =>
          cases e <;> exact ⟨[cur], by simp [hn, hs, LoopEnd.finalCS]⟩
        | none =>
          cases he : lookupKey g.edges cur with
          | none =>
            exact ⟨[cur],
              by simp [hn, hs, he, LoopEnd.finalCS, resolveInterruptSlot_Visited]⟩
          | some r =>
            obtain ⟨t', ht⟩ := ih (EdgeResolver.Resolve r ctx s')
              (setCheckpointID
                (resolveInterruptSlot g ctx
                  { cs with Visited := cs.Visited ++ [cur] } cur)
                (EdgeResolver.Resolve r ctx s')) s'
            refine ⟨[cur] ++ t', ?_⟩
            simp only [hn, hs, he]
            rw [ht]
            simp [setCheckpointID, resolveInterruptSlot_Visited]

/-- Every name the loop appends to Visited was looked up successfully in
the node map in its own iteration, unless the run ended in the nil-node
crash: in a crash-free run every final Visited element is either carried
over from the incoming checkpoint or registered. -/
theorem execLoop_Visited_registered {T : Type} (g : Graph T) (ctx : Ctx) :
    ∀ (fuel : Nat) (cur : String) (cs : CheckpointState) (s : T),
      (execLoop g ctx fuel cur cs s).1.isCrashed = false →
      ∀ v ∈ ((execLoop g ctx fuel cur cs s).1.finalCS).Visited,
        v ∈ cs.Visited ∨ (lookupKey g.nodeMap v).isSome = true := by
  intro fuel
  induction fuel with
  | zero =>
    intro cur cs s _ v hv
    simp [execLoop, LoopEnd.finalCS] at hv
    exact Or.inl hv
  | succ n ih =>
    intro cur cs s hcr v hv
    simp only [execLoop] at hcr hv
    cases hn : lookupKey g.nodeMap cur with
    | none => simp [hn, LoopEnd.isCrashed] at hcr
    | some node =>
      cases hs : node (LoadNodeID ctx cur) s with
      | mk s' err =>
        cases err with
        | some e =>
          cases e <;>
            (simp [hn, hs, LoopEnd.finalCS] at hv
             rcases hv with h | h
             · exact Or.inl h
             · exact Or.inr (by simp [h, hn]))
        | none =>
          cases he : lookupKey g.edges cur with
          | none =>
            simp [hn, hs, he, LoopEnd.finalCS, resolveInterruptSlot_Visited] at hv
            rcases hv with h | h
            · exact Or.inl h
            · exact Or.inr (by simp [h, hn])
          | some r =>
            simp only [hn, hs, he] at hcr hv
            have hm := ih (EdgeResolver.Resolve r ctx s')
              (setCheckpointID
                (resolveInterruptSlot g ctx
                  { cs with Visited := cs.Visited ++ [cur] } cur)
                (EdgeResolver.Resolve r ctx s')) s' hcr v hv
            rcases hm with h | h
            · simp [setCheckpointID, resolveInterruptSlot_Visited] at h
              rcases h with h | h
              · exact Or.inl h
              · exact Or.inr (by simp [h, hn])
            · exact Or.inr h

/-- The wrapper does not change the outcome of the loop, only the trace. -/
theorem Flow_Execute_fst {T : Type} (g : Graph T) (ctx : Ctx) (fuel : Nat)
    (cs : CheckpointState) (s : T) :
    (Flow.Execute g ctx fuel cs s).1 =
      (execLoop g ctx fuel
        (if cs.CheckpointID ≠ "" then cs.CheckpointID else g.start)
        (if cs.CheckpointID ≠ "" then cs else { cs with CheckpointID := g.start })
        s).1 := by
  simp only [Flow.Execute]
  split <;> split <;> rfl

/-- When the loop ends within fuel, the trace of the wrapper is the loop
trace followed by the single end-of-run event. -/
theorem Flow_Execute_snd {T : Type} (g : Graph T) (ctx : Ctx) (fuel : Nat)
    (cs : CheckpointState) (s : T)
    (h : (execLoop g ctx fuel
        (if cs.CheckpointID ≠ "" then cs.CheckpointID else g.start)
        (if cs.CheckpointID ≠ "" then cs else { cs with CheckpointID := g.start })
        s).1.isFuelOut = false) :
    (Flow.Execute g ctx fuel cs s).2 =
      (execLoop g ctx fuel
        (if cs.CheckpointID ≠ "" then cs.CheckpointID else g.start)
        (if cs.CheckpointID ≠ "" then cs else { cs with CheckpointID := g.start })
        s).2 ++
      [.graphEnd
        (execLoop g ctx fuel
          (if cs.CheckpointID ≠ "" then cs.CheckpointID else g.start)
          (if cs.CheckpointID ≠ "" then cs else { cs with CheckpointID := g.start })
          s).1.finalCS
        (execLoop g ctx fuel
          (if cs.CheckpointID ≠ "" then cs.CheckpointID else g.start)
          (if cs.CheckpointID ≠ "" then cs else { cs with CheckpointID := g.start })
          s).1.finalState] := by
  simp only [Flow.Execute]
  rw [if_neg (by rw [h]; simp)]

/-- Claim C7: on every run that ends (completed, suspended by an
interrupt, failed, or even crashed), the lifecycle trace contains the
end-of-run event exactly once, as its last element, carrying the final
checkpoint state and final application state. -/
theorem claim_C7_graphEnd_exactly_once {T : Type} (g : Graph T) (ctx : Ctx)
    (fuel : Nat) (cs : CheckpointState) (s : T)
    (h : (Flow.Execute g ctx fuel cs s).1.isFuelOut = false) :
    ∃ pre, (Flow.Execute g ctx fuel cs s).2 =
        pre ++ [.graphEnd (Flow.Execute g ctx fuel cs s).1.finalCS
                  (Flow.Execute g ctx fuel cs s).1.finalState] ∧
      ∀ ev ∈ pre, ev.isGraphEnd = false := by
  rw [Flow_Execute_fst] at h
  refine ⟨(execLoop g ctx fuel
      (if cs.CheckpointID ≠ "" then cs.CheckpointID else g.start)
      (if cs.CheckpointID ≠ "" then cs else { cs with CheckpointID := g.start })
      s).2, ?_, ?_⟩
  · rw [Flow_Execute_fst, Flow_Execute_snd g ctx fuel cs s h]
  · intro ev hev
    exact execLoop_no_graphEnd g ctx fuel _ _ _ ev hev

/-- Witness for claim C7 at the unmapped-label graph run. -/
theorem claim_C7_witness :
    ∃ pre, (Flow.Execute gC1 ctxU 2 CheckpointState.zero ()).2 =
        pre ++ [.graphEnd (Flow.Execute gC1 ctxU 2 CheckpointState.zero ()).1.finalCS
                  (Flow.Execute gC1 ctxU 2 CheckpointState.zero ()).1.finalState] ∧
      ∀ ev ∈ pre, ev.isGraphEnd = false :=
  claim_C7_graphEnd_exactly_once gC1 ctxU 2 CheckpointState.zero () (by rfl)

/-- Claim C8, amended: across an engine run starting from any checkpoint
(as Invoke and every Continue do), the incoming Visited list is a prefix
of the final one, whatever the outcome; and in every run that does not
crash on a missing node, each element of the final Visited list is
either carried over from the incoming checkpoint or registered in the
node map of the graph. -/
theorem claim_C8_amended_visited {T : Type} (g : Graph T) (ctx : Ctx)
    (fuel : Nat) (cs : CheckpointState) (s : T) :
    (∃ t, ((Flow.Execute g ctx fuel cs s).1.finalCS).Visited = cs.Visited ++ t) ∧
    ((Flow.Execute g ctx fuel cs s).1.isCrashed = false →
      ∀ v ∈ ((Flow.Execute g ctx fuel cs s).1.finalCS).Visited,
        v ∈ cs.Visited ∨ (lookupKey g.nodeMap v).isSome = true) := by
  rw [Flow_Execute_fst]
  by_cases hc : cs.CheckpointID = ""
  · rw [if_neg (by simp [hc]), if_neg (by simp [hc])]
    constructor
    · exact execLoop_Visited_mono g ctx fuel g.start
        { cs with CheckpointID := g.start } s
    · intro hcr v hv
      exact execLoop_Visited_registered g ctx fuel g.start
        { cs with CheckpointID := g.start } s hcr v hv
  · rw [if_pos hc, if_pos hc]
    constructor
    · exact execLoop_Visited_mono g ctx fuel cs.CheckpointID cs s
    · intro hcr v hv
      exact execLoop_Visited_registered g ctx fuel cs.CheckpointID cs s hcr v hv

/-- Witness for the amended claim C8 at the scenario graph first run. -/
theorem claim_C8_amended_witness :
    (∃ t, ((Flow.Execute scenarioGraph ctxI 10 CheckpointState.zero
        { name := "" }).1.finalCS).Visited = CheckpointState.zero.Visited ++ t) ∧
    ((Flow.Execute scenarioGraph ctxI 10 CheckpointState.zero
        { name := "" }).1.isCrashed = false →
      ∀ v ∈ ((Flow.Execute scenarioGraph ctxI 10 CheckpointState.zero
          { name := "" }).1.finalCS).Visited,
        v ∈ CheckpointState.zero.Visited ∨
          (lookupKey scenarioGraph.nodeMap v).isSome = true) :=
  claim_C8_amended_visited scenarioGraph ctxI 10 CheckpointState.zero { name := "" }

/-- Claim C5: when the step the cursor points at fails, the engine treats
an Interrupt failure by storing it into the pending slot, firing the
post-step hook with the updated checkpoint (followed only by the
end-of-run hook), stopping the loop and returning the failure; any other
failure is returned verbatim with no interrupt stored, no post-step hook
for that step, and no retry: the run ends on that single iteration. -/
theorem claim_C5_step_error_handling {T : Type} (g : Graph T) (ctx : Ctx)
    (fuel : Nat) (cs : CheckpointState) (s : T) (n : String) (node : Node T)
    (s' : T) (e : Err)
    (hcur : cs.CheckpointID = n) (hne : n ≠ "")
    (hnode : lookupKey g.nodeMap n = some node)
    (hexec : node (LoadNodeID ctx n) s = (s', some e)) :
    (∀ i, e = .hitl i →
      Flow.Execute g ctx (fuel + 1) cs s =
        (.errored s' (.hitl i)
            { cs with Visited := cs.Visited ++ [n], Interrupt := i },
         [.nodeExec { cs with Visited := cs.Visited ++ [n], Interrupt := i } s',
          .graphEnd { cs with Visited := cs.Visited ++ [n], Interrupt := i } s'])) ∧
    ((∀ i, e ≠ .hitl i) →
      Flow.Execute g ctx (fuel + 1) cs s =
        (.errored s e { cs with Visited := cs.Visited ++ [n] },
         [.graphEnd { cs with Visited := cs.Visited ++ [n] } s]) ∧
      ({ cs with Visited := cs.Visited ++ [n] } : CheckpointState).Interrupt =
        cs.Interrupt) := by
  have hif1 : (if cs.CheckpointID ≠ "" then cs.CheckpointID else g.start) = n := by
    simp [hcur, hne]
  have hif2 : (if cs.CheckpointID ≠ "" then cs
      else { cs with CheckpointID := g.start }) = cs := by
    simp [hcur, hne]
  constructor
  · intro i hi
    subst hi
    have hloop : execLoop g ctx (fuel + 1) n cs s =
        (.errored s' (.hitl i)
            { cs with Visited := cs.Visited ++ [n], Interrupt := i },
         [.nodeExec { cs with Visited := cs.Visited ++ [n], Interrupt := i } s']) := by
      simp [execLoop, hnode, hexec]
    simp only [Flow.Execute]
    rw [hif1, hif2, hloop]
    simp [LoopEnd.isFuelOut, LoopEnd.finalCS, LoopEnd.finalState]
  · intro hno
    have hloop : execLoop g ctx (fuel + 1) n cs s =
        (.errored s e { cs with Visited := cs.Visited ++ [n] }, []) := by
      cases e with
      | hitl i => exact absurd rfl (hno i)
      | reqKeyNotFound k => simp [execLoop, hnode, hexec]
      | reqInvalid k v sug => simp [execLoop, hnode, hexec]
      | other m => simp [execLoop, hnode, hexec]
    refine ⟨?_, rfl⟩
    simp only [Flow.Execute]
    rw [hif1, hif2, hloop]
    simp [LoopEnd.isFuelOut, LoopEnd.finalCS, LoopEnd.finalState]

/-- A node that always fails with an opaque error. -/
def errNode : Node Unit := fun _ s => (s, some (.other "boom"))

/-- One-node graph whose node fails with an opaque error. -/
def gW5 : Graph Unit :=
  (((NewGraphBuilder Unit).AddNode "E" errNode).SetStartNode "E").g

/-- Checkpoint whose cursor points at the failing node. -/
def csW5 : CheckpointState :=
  { CheckpointID := "E", Visited := [], Interrupt := HITLInterrupt.zero,
    InterruptHistory := [] }

/-- Witness for claim C5 at the failing one-node graph. -/
theorem claim_C5_witness :
    Flow.Execute gW5 ctxU 1 csW5 () =
      (.errored () (.other "boom") { csW5 with Visited := csW5.Visited ++ ["E"] },
       [.graphEnd { csW5 with Visited := csW5.Visited ++ ["E"] } ()]) ∧
    ({ csW5 with Visited := csW5.Visited ++ ["E"] } : CheckpointState).Interrupt =
      csW5.Interrupt :=
  (claim_C5_step_error_handling gW5 ctxU 0 csW5 () "E" errNode () (.other "boom")
      rfl (by decide) rfl rfl).2 (fun i h => nomatch h)

/-- Claim C6: when a resolved interrupt for the current node is loaded in
the context, InterruptWithValidation runs the supplied validator on the
resolved answers; on validator failure it returns, as a failure, an
interrupt equal to the original one except for the attached validation
error, hence with the same InterruptID; on validator success it returns
the answer mapping with no error. -/
theorem claim_C6_resume_validation (ctx : Ctx) (message reason : String)
    (values : Requirements) (fn : List (String × String) → Option String)
    (nodeID : String) (ex : ResolvedHITLInterrupt)
    (hnode : GetNodeID ctx = some nodeID)
    (hres : lookupKey ctx.resolvedInterrupts nodeID = some ex) :
    (∀ verr, fn ex.Values = some verr →
      InterruptWithValidation ctx message reason values fn =
        .error (.hitl { ex.HITLInterrupt with ValidationError := some verr }) ∧
      ({ ex.HITLInterrupt with
          ValidationError := some verr } : HITLInterrupt).InterruptID =
        ex.HITLInterrupt.InterruptID) ∧
    (fn ex.Values = none →
      InterruptWithValidation ctx message reason values fn = .ok ex.Values) := by
  constructor
  · intro verr hv
    refine ⟨?_, rfl⟩
    simp [InterruptWithValidation, hnode, hres, hv]
  · intro hv
    simp [InterruptWithValidation, hnode, hres, hv]

/-- The resolved interrupt used by the witnesses of claims C6 and C9. -/
def exW : ResolvedHITLInterrupt :=
  { HITLInterrupt :=
      { Reason := "need_name", Message := "m", ValidationError := none,
        Requirements := [("name", { reqType := Custom, Suggestions := [] })],
        InterruptID := { NodeID := "A", ID := "t0" } },
    Values := [("name", "zz")] }

/-- A context in which node A has a loaded resolved interrupt. -/
def ctxW : Ctx :=
  { currentNode := some "A", resolvedInterrupts := [("A", exW)], freshToken := "t9" }

/-- A validator that rejects every answer mapping. -/
def fnReject : List (String × String) → Option String := fun _ => some "bad"

/-- Witness for claim C6 on the rejecting validator. -/
theorem claim_C6_witness :
    InterruptWithValidation ctxW "m2" "r2" [] fnReject =
      .error (.hitl { exW.HITLInterrupt with ValidationError := some "bad" }) ∧
    ({ exW.HITLInterrupt with
        ValidationError := some "bad" } : HITLInterrupt).InterruptID =
      exW.HITLInterrupt.InterruptID :=
  (claim_C6_resume_validation ctxW "m2" "r2" [] fnReject "A" exW rfl rfl).1
    "bad" rfl

/-- Claim C9: the plain entry point Interrupt equals InterruptWithValidation
with the always-succeeding validator on every input, and whenever it
fails with an interrupt, that interrupt carries no validation error, so
it never produces a validation-error re-suspension. -/
theorem claim_C9_plain_is_trivial_validator (ctx : Ctx) (message reason : String)
    (values : Requirements) :
    Interrupt ctx message reason values =
      InterruptWithValidation ctx message reason values (fun _ => none) ∧
    ∀ i, Interrupt ctx message reason values = .error (.hitl i) →
      i.ValidationError = none := by
  refine ⟨rfl, ?_⟩
  intro i h
  unfold Interrupt InterruptWithValidation at h
  cases hn : GetNodeID ctx with
  | none => rw [hn] at h; cases h
  | some nodeID =>
    rw [hn] at h
    simp only at h
    cases hr : lookupKey ctx.resolvedInterrupts nodeID with
    | some ex =>
      rw [hr] at h
      simp at h
    | none =>
      rw [hr] at h
      simp only [Except.error.injEq, Err.hitl.injEq] at h
      subst h
      rfl

/-- Witness for claim C9 at a context with no resolved interrupt. -/
theorem claim_C9_witness :
    Interrupt { currentNode := some "A", resolvedInterrupts := [], freshToken := "t9" }
        "m" "r" [] =
      InterruptWithValidation
        { currentNode := some "A", resolvedInterrupts := [], freshToken := "t9" }
        "m" "r" [] (fun _ => none) ∧
    ({ Reason := "r", Message := "m", ValidationError := none, Requirements := [],
       InterruptID := { NodeID := "A", ID := "t9" } } : HITLInterrupt).ValidationError =
      none :=
  ⟨(claim_C9_plain_is_trivial_validator
      { currentNode := some "A", resolvedInterrupts := [], freshToken := "t9" }
      "m" "r" []).1,
   (claim_C9_plain_is_trivial_validator
      { currentNode := some "A", resolvedInterrupts := [], freshToken := "t9" }
      "m" "r" []).2
     { Reason := "r", Message := "m", ValidationError := none, Requirements := [],
       InterruptID := { NodeID := "A", ID := "t9" } } rfl⟩

/-- Claim C10: Requirements.Validate succeeds exactly when every declared
key maps to a non-empty string in the values (extra keys ignored, no
enum check), and every failure is a requirement-key-not-found error
naming a declared key that is absent or mapped to the empty string. -/
theorem claim_C10_requirements_validate (r : Requirements)
    (values : List (String × String)) :
    (Requirements.Validate r values = none ↔
      ∀ kv ∈ r, ∃ v, lookupKey values kv.1 = some v ∧ v ≠ "") ∧
    (∀ e, Requirements.Validate r values = some e →
      ∃ k, e = RequirementKeyNotFound k ∧ (∃ req, (k, req) ∈ r) ∧
        (lookupKey values k = none ∨ lookupKey values k = some "")) := by
  induction r with
  | nil =>
    refine ⟨?_, ?_⟩
    · simp [Requirements.Validate]
    · intro e h
      simp [Requirements.Validate] at h
  | cons kr rest ih =>
    obtain ⟨k, req⟩ := kr
    refine ⟨⟨?_, ?_⟩, ?_⟩
    · intro h kv hkv
      cases hl : lookupKey values k with
      | none => simp [Requirements.Validate, hl] at h
      | some data =>
        by_cases hd : data = ""
        · simp [Requirements.Validate, hl, hd] at h
        · simp only [Requirements.Validate, hl, if_neg hd] at h
          rw [List.mem_cons] at hkv
          rcases hkv with hkv | hkv
          · subst hkv
            exact ⟨data, hl, hd⟩
          · exact (ih.1.mp h) kv hkv
    · intro hall
      obtain ⟨v, hv, hne⟩ := hall (k, req) (List.mem_cons_self _ _)
      simp only [Requirements.Validate, hv, if_neg hne]
      exact ih.1.mpr (fun kv hkv => hall kv (List.mem_cons_of_mem _ hkv))
    · intro e h
      cases hl : lookupKey values k with
      | none =>
        simp only [Requirements.Validate, hl, Option.some.injEq] at h
        exact ⟨k, h.symm, ⟨req, List.mem_cons_self _ _⟩, Or.inl hl⟩
      | some data =>
        by_cases hd : data = ""
        · simp only [Requirements.Validate, hl, if_pos hd, Option.some.injEq] at h
          exact ⟨k, h.symm, ⟨req, List.mem_cons_self _ _⟩, Or.inr (hd ▸ hl)⟩
        · simp only [Requirements.Validate, hl, if_neg hd] at h
          obtain ⟨k', hk', hmem, hor⟩ := ih.2 e h
          obtain ⟨req', hreq'⟩ := hmem
          exact ⟨k', hk', ⟨req', List.mem_cons_of_mem _ hreq'⟩, hor⟩

/-- Witness for claim C10: a declared key present with an empty string is
reported as requirement-key-not-found. -/
theorem claim_C10_witness :
    ∃ k, RequirementKeyNotFound "k" = RequirementKeyNotFound k ∧
      (∃ req, (k, req) ∈
        ([("k", { reqType := Custom, Suggestions := [] })] : Requirements)) ∧
      (lookupKey [("k", "")] k = none ∨ lookupKey [("k", "")] k = some "") :=
  (claim_C10_requirements_validate
      [("k", { reqType := Custom, Suggestions := [] })] [("k", "")]).2
    (RequirementKeyNotFound "k") rfl

/-- Every failure of the answer-validation loop names a declared key: a
missing key yields requirement-key-not-found, a present enum answer
outside the suggestions yields requirement-invalid. -/
theorem validateAnswers_error_shape :
    ∀ (reqs : List (String × Requirement)) (rc : List (String × String)) (e : Err),
      validateAnswers reqs rc = .error e →
      (∃ k req, (k, req) ∈ reqs ∧ lookupKey rc k = none ∧
        e = RequirementKeyNotFound k) ∨
      (∃ k req ans, (k, req) ∈ reqs ∧ lookupKey rc k = some ans ∧
        req.reqType = Enum ∧ ans ∉ req.Suggestions ∧
        e = RequirementInvalid k ans req.Suggestions) := by
  intro reqs
  induction reqs with
  | nil =>
    intro rc e h
    simp [validateAnswers] at h
  | cons kr rest ih =>
    obtain ⟨k, req⟩ := kr
    intro rc e h
    cases hl : lookupKey rc k with
    | none =>
      simp only [validateAnswers, hl, Except.error.injEq] at h
      exact Or.inl ⟨k, req, List.mem_cons_self _ _, hl, h.symm⟩
    | some ans =>
      by_cases hc : req.reqType = Enum ∧ ans ∉ req.Suggestions
      · simp only [validateAnswers, hl, if_pos hc, Except.error.injEq] at h
        exact Or.inr ⟨k, req, ans, List.mem_cons_self _ _, hl, hc.1, hc.2, h.symm⟩
      · simp only [validateAnswers, hl, if_neg hc] at h
        cases hr : validateAnswers rest rc with
        | error e' =>
          rw [hr] at h
          simp only [Except.error.injEq] at h
          subst h
          rcases ih rc e' hr with
            ⟨k', req', hm, hlk, he⟩ | ⟨k', req', ans', hm, hlk, ht, hns, he⟩
          · exact Or.inl ⟨k', req', List.mem_cons_of_mem _ hm, hlk, he⟩
          · exact Or.inr ⟨k', req', ans', List.mem_cons_of_mem _ hm, hlk, ht, hns, he⟩
        | ok vs =>
          rw [hr] at h
          simp at h

/-- Whenever some declared requirement is missing from the answers or is
an enum requirement answered outside its suggestions, the validation
loop fails. -/
theorem validateAnswers_fails :
    ∀ (reqs : List (String × Requirement)) (rc : List (String × String)),
      (∃ k req, (k, req) ∈ reqs ∧
        (lookupKey rc k = none ∨
          (∃ ans, lookupKey rc k = some ans ∧ req.reqType = Enum ∧
            ans ∉ req.Suggestions))) →
      ∃ e, validateAnswers reqs rc = .error e := by
  intro reqs
  induction reqs with
  | nil =>
    rintro rc ⟨k, req, hm, _⟩
    simp at hm
  | cons kr rest ih =>
    obtain ⟨k0, req0⟩ := kr
    rintro rc ⟨k, req, hm, hbad⟩
    cases hl : lookupKey rc k0 with
    | none =>
      exact ⟨RequirementKeyNotFound k0, by simp [validateAnswers, hl]⟩
    | some ans0 =>
      by_cases hc : req0.reqType = Enum ∧ ans0 ∉ req0.Suggestions
      · exact ⟨RequirementInvalid k0 ans0 req0.Suggestions,
          by simp only [validateAnswers, hl, if_pos hc]⟩
      · rw [List.mem_cons] at hm
        rcases hm with hm | hm
        · obtain ⟨hk, hreq⟩ := Prod.mk.injEq .. ▸ hm
          subst hk
          subst hreq
          rcases hbad with hnone | ⟨ans, hans, ht, hns⟩
          · rw [hl] at hnone
            cases hnone
          · rw [hl] at hans
            obtain rfl : ans0 = ans := by
              simpa using hans
            exact absurd ⟨ht, hns⟩ hc
        · obtain ⟨e, he⟩ := ih rc ⟨k, req, hm, hbad⟩
          exact ⟨e, by simp only [validateAnswers, hl, if_neg hc, he]⟩

/-- When every declared key is present, a validation failure can only be
the requirement-invalid error of some offending enum requirement. -/
theorem validateAnswers_allPresent :
    ∀ (reqs : List (String × Requirement)) (rc : List (String × String)) (e : Err),
      (∀ k req, (k, req) ∈ reqs → (lookupKey rc k).isSome = true) →
      validateAnswers reqs rc = .error e →
      ∃ k req ans, (k, req) ∈ reqs ∧ lookupKey rc k = some ans ∧
        req.reqType = Enum ∧ ans ∉ req.Suggestions ∧
        e = RequirementInvalid k ans req.Suggestions := by
  intro reqs rc e hall h
  rcases validateAnswers_error_shape reqs rc e h with
    ⟨k, req, hm, hlk, _⟩ | ⟨k, req, ans, hm, hlk, ht, hns, he⟩
  · have hsome := hall k req hm
    rw [hlk] at hsome
    cases hsome
  · exact ⟨k, req, ans, hm, hlk, ht, hns, he⟩

/-- Claim C4, amended: when the stored pending interrupt has a declared
requirement that is missing from the answers or is an enum requirement
answered outside its suggestions, Continue fails before re-invoking the
engine and the store is unchanged; the error names the first offending
declared requirement: a requirement-missing error for a missing key, or
a requirement-invalid error (with key, value, and the allowed set) for a
present-but-invalid enum answer, and when every declared key is present
the error is necessarily of the requirement-invalid form. -/
theorem claim_C4_amended_continue_rejection {T : Type} [Inhabited T] (p : Pipe T)
    (ctx : Ctx) (fuel : Nat) (id : String) (rc : List (String × String))
    (σ : StoreState T) (ex : ExecutionState T)
    (hstore : lookupKey σ (InMemoryStore.key { ID := id, FlowName := p.name }) =
      some ex)
    (hfail : ∃ k req, (k, req) ∈ ex.CheckpointState.Interrupt.Requirements ∧
      (lookupKey rc k = none ∨
        (∃ ans, lookupKey rc k = some ans ∧ req.reqType = Enum ∧
          ans ∉ req.Suggestions))) :
    ∃ e, p.Continue ctx fuel id rc σ = (.ret ex.ApplicationState (some e), σ) ∧
      ((∃ k req, (k, req) ∈ ex.CheckpointState.Interrupt.Requirements ∧
          lookupKey rc k = none ∧ e = RequirementKeyNotFound k) ∨
        (∃ k req ans, (k, req) ∈ ex.CheckpointState.Interrupt.Requirements ∧
          lookupKey rc k = some ans ∧ req.reqType = Enum ∧
          ans ∉ req.Suggestions ∧ e = RequirementInvalid k ans req.Suggestions)) ∧
      ((∀ k req, (k, req) ∈ ex.CheckpointState.Interrupt.Requirements →
          (lookupKey rc k).isSome = true) →
        ∃ k req ans, (k, req) ∈ ex.CheckpointState.Interrupt.Requirements ∧
          lookupKey rc k = some ans ∧ req.reqType = Enum ∧
          ans ∉ req.Suggestions ∧ e = RequirementInvalid k ans req.Suggestions) := by
  obtain ⟨e, he⟩ :=
    validateAnswers_fails ex.CheckpointState.Interrupt.Requirements rc hfail
  refine ⟨e, ?_, ?_, ?_⟩
  · simp only [Pipe.Continue, InMemoryStore.Get, hstore, he]
  · exact validateAnswers_error_shape ex.CheckpointState.Interrupt.Requirements rc e he
  · intro hall
    exact validateAnswers_allPresent ex.CheckpointState.Interrupt.Requirements
      rc e hall he

/-- The requirements of the stored interrupt used by the C4 material: an
enum requirement k1 allowing only a, then a custom requirement k2. -/
def c4Requirements : List (String × Requirement) :=
  [("k1", { reqType := Enum, Suggestions := ["a"] }),
   ("k2", { reqType := Custom, Suggestions := [] })]

/-- The stored pending interrupt of the C4 material. -/
def c4Interrupt : HITLInterrupt :=
  { Reason := "r", Message := "m", ValidationError := none,
    Requirements := c4Requirements, InterruptID := { NodeID := "A", ID := "t" } }

/-- The stored execution state of the C4 material. -/
def c4Exec : ExecutionState Unit :=
  { CheckpointState :=
      { CheckpointID := "A", Visited := ["A"], Interrupt := c4Interrupt,
        InterruptHistory := [] },
    ApplicationState := () }

/-- A store holding the C4 execution state under run id r1 of flow wf. -/
def c4Store : StoreState Unit := [("r1:wf", c4Exec)]

/-- The pipe of the C4 material. -/
def pC4 : Pipe Unit := { name := "wf", graph := gC1 }

/-- Counterexample to claim C4 as stated: the declared key k2 is absent
from the answers, yet Continue fails with the requirement-invalid error
for the enum key k1 (whose present answer b is not allowed), not with a
requirement-missing error naming k2; the store is unchanged. -/
theorem claim_C4_counterexample :
    (("k2", { reqType := Custom, Suggestions := [] }) ∈
      c4Interrupt.Requirements) ∧
    lookupKey [("k1", "b")] "k2" = none ∧
    pC4.Continue ctxU 5 "r1" [("k1", "b")] c4Store =
      (.ret () (some (RequirementInvalid "k1" "b" ["a"])), c4Store) := by
  refine ⟨?_, rfl, rfl⟩
  simp [c4Interrupt, c4Requirements]

/-- Witness for the amended claim C4: with no answers at all, Continue on
the stored C4 state fails, the store is unchanged, and the error names a
declared requirement. -/
theorem claim_C4_amended_witness :
    ∃ e, pC4.Continue ctxU 5 "r1" [] c4Store =
        (.ret c4Exec.ApplicationState (some e), c4Store) ∧
      ((∃ k req, (k, req) ∈ c4Exec.CheckpointState.Interrupt.Requirements ∧
          lookupKey ([] : List (String × String)) k = none ∧ e = RequirementKeyNotFound k) ∨
        (∃ k req ans, (k, req) ∈ c4Exec.CheckpointState.Interrupt.Requirements ∧
          lookupKey ([] : List (String × String)) k = some ans ∧ req.reqType = Enum ∧
          ans ∉ req.Suggestions ∧ e = RequirementInvalid k ans req.Suggestions)) ∧
      ((∀ k req, (k, req) ∈ c4Exec.CheckpointState.Interrupt.Requirements →
          (lookupKey ([] : List (String × String)) k).isSome = true) →
        ∃ k req ans, (k, req) ∈ c4Exec.CheckpointState.Interrupt.Requirements ∧
          lookupKey ([] : List (String × String)) k = some ans ∧ req.reqType = Enum ∧
          ans ∉ req.Suggestions ∧ e = RequirementInvalid k ans req.Suggestions) :=
  claim_C4_amended_continue_rejection pC4 ctxU 5 "r1" [] c4Store c4Exec rfl
    ⟨"k2", { reqType := Custom, Suggestions := [] },
      by simp [c4Exec, c4Interrupt, c4Requirements], Or.inl rfl⟩
